import Mathlib

/-!
# Verification of the Fromage optimizer (pytorch_optimizer/optimizer/fromage.py)

A shallow embedding of the Fromage parameter-update rule.  Tensors are
modelled as lists of real numbers, the Euclidean (Frobenius) norm as
`Real.sqrt` of the sum of squares, and the per-parameter optimizer state
(the lazily initialised `max` entry) as an `Option ℝ`.  The Python
`defaults` dictionary only receives the `p_bound` key when a bound is
supplied, so a group's `p_bound` field is an `Option ℝ`: `none` models a
missing dictionary key, and reading a missing key is a `KeyError`.
Exceptions are modelled as an error value returned next to the partially
mutated parameter list (Python mutates tensors in place, so work done
before a raise survives it).
-/

namespace Fromage

/-- A gradient tensor: its dense values and whether it is stored sparse. -/
structure Grad where
  values : List ℝ
  isSparse : Bool

/-- A parameter together with its (optional) gradient and its per-parameter
optimizer state: `st = some m` models `state` holding the key `max` with value `m` and `st = none`
models the empty state dict (`len(state) == 0`). -/
structure ParamEntry where
  value : List ℝ
  grad : Option Grad
  st : Option ℝ

/-- A parameter group: learning rate, the optional `p_bound` key of the
group dictionary (`none` = key absent), and the parameters. -/
structure Group where
  lr : ℝ
  pBound : Option ℝ
  params : List ParamEntry

/-- The exceptions the updater can raise. -/
inductive FromageError where
  | noSparseGradient : String → FromageError
  | keyError : String → FromageError
  | invalidConfiguration : FromageError
  | closureFailure : String → FromageError
deriving DecidableEq

/-- The string representation of this optimizer, `str(self)`. -/
def toStr : String := "Fromage"

/-- The `p_bound` dictionary key. -/
def pBoundKey : String := "p_bound"

/-- The Euclidean (L2 / Frobenius) norm of a tensor flattened to a list,
`torch.Tensor.norm()`. -/
noncomputable def l2norm (xs : List ℝ) : ℝ :=
  Real.sqrt ((xs.map (fun x => x ^ 2)).sum)

/-- Lines 79–86 of `fromage.py`: the norm-ratio update followed by the
damping division.
`if p_norm > 0.0 and g_norm > 0.0: p.add_(grad * (p_norm / g_norm), alpha=-lr)
else: p.add_(grad, alpha=-lr)` and then `p.div_(prefactor)`. -/
noncomputable def dampedUpdate (lr prefactor : ℝ) (p g : List ℝ) : List ℝ :=
  let p_norm := l2norm p
  let g_norm := l2norm g
  let p1 :=
    if 0 < p_norm ∧ 0 < g_norm then
      List.zipWith (fun a b => a + (-lr) * b) p (g.map (fun x => x * (p_norm / g_norm)))
    else
      List.zipWith (fun a b => a + (-lr) * b) p g
  p1.map (fun x => x / prefactor)

/-- Lines 88–91 of `fromage.py`: the bound projection.
`p_norm = p.norm(); if p_norm > state[max]: p.mul_(state[max]).div_(p_norm)`. -/
noncomputable def boundProject (m : ℝ) (p : List ℝ) : List ℝ :=
  let p_norm := l2norm p
  if m < p_norm then (p.map (fun x => x * m)).map (fun x => x / p_norm) else p

/-- One iteration of the inner loop of `Fromage.step` for a single
parameter.  Returns the parameter as left by the iteration together with
the exception it raised, if any.  The four-way match mirrors the two
dictionary tests of the source: `len(state) == 0 and group[p_bound] is
not None` (a `KeyError` when the key is absent and the state is empty)
and the unconditional `if group[p_bound] is not None:` before the bound
projection (a `KeyError` reached only after the in-place update already
happened). -/
noncomputable def stepOne (lr prefactor : ℝ) (pBound : Option ℝ) (e : ParamEntry) :
    ParamEntry × Option FromageError :=
  match e.grad with
  | none => (e, none)
  | some grad =>
    if grad.isSparse then
      (e, some (FromageError.noSparseGradient toStr))
    else
      match e.st, pBound with
      | none, none => (e, some (FromageError.keyError pBoundKey))
      | none, some b =>
        let m := l2norm e.value * b
        let v1 := dampedUpdate lr prefactor e.value grad.values
        ({ value := boundProject m v1, grad := e.grad, st := some m }, none)
      | some m, none =>
        let v1 := dampedUpdate lr prefactor e.value grad.values
        ({ value := v1, grad := e.grad, st := some m },
          some (FromageError.keyError pBoundKey))
      | some m, some _ =>
        let v1 := dampedUpdate lr prefactor e.value grad.values
        ({ value := boundProject m v1, grad := e.grad, st := some m }, none)

/-- Runs `f` over a list, mutating in order and stopping at the first
exception; elements after the failing one are left untouched. -/
def runLoop {α : Type} (f : α → α × Option FromageError) :
    List α → List α × Option FromageError
  | [] => ([], none)
  | e :: rest =>
    let r := f e
    match r.2 with
    | some er => (r.1 :: rest, some er)
    | none =>
      let rr := runLoop f rest
      (r.1 :: rr.1, rr.2)

/-- One group of `Fromage.step`: the prefactor `sqrt(1 + lr ** 2)` is
computed once per group, then every parameter is processed. -/
noncomputable def stepGroup (g : Group) : Group × Option FromageError :=
  let prefactor := Real.sqrt (1 + g.lr ^ 2)
  let r := runLoop (stepOne g.lr prefactor g.pBound) g.params
  ({ g with params := r.1 }, r.2)

/-- Lifts a per-group action over the list of parameter groups. -/
def runGroups (f : Group → Group × Option FromageError) :
    List Group → List Group × Option FromageError
  | [] => ([], none)
  | g :: rest =>
    let r := f g
    match r.2 with
    | some er => (r.1 :: rest, some er)
    | none =>
      let rr := runGroups f rest
      (r.1 :: rr.1, rr.2)

/-- The step operation, `Fromage.step`.  The closure is modelled by the outcome of invoking
it: `some (Except.ok l)` is a closure returning loss `l`,
`some (Except.error e)` a closure that raises, `none` no closure.  The
closure is evaluated first; then the groups are processed.  The result is
the final state of the groups together with the returned loss or the
raised exception. -/
noncomputable def step (closure : Option (Except String ℝ)) (gs : List Group) :
    List Group × Except FromageError (Option ℝ) :=
  match closure with
  | some (Except.error e) => (gs, Except.error (FromageError.closureFailure e))
  | some (Except.ok l) =>
    let r := runGroups stepGroup gs
    (r.1, match r.2 with
      | some er => Except.error er
      | none => Except.ok (some l))
  | none =>
    let r := runGroups stepGroup gs
    (r.1, match r.2 with
      | some er => Except.error er
      | none => Except.ok none)

/-- One parameter of `Fromage.reset`: `if group[p_bound] is not None:
state[max] = p.norm().mul_(group[p_bound])` — a `KeyError` when the
`p_bound` key is absent, otherwise an unconditional overwrite of
`state[max]`. -/
noncomputable def resetParam (pBound : Option ℝ) (e : ParamEntry) :
    ParamEntry × Option FromageError :=
  match pBound with
  | none => (e, some (FromageError.keyError pBoundKey))
  | some b => ({ e with st := some (l2norm e.value * b) }, none)

/-- The reset operation, `Fromage.reset`. -/
noncomputable def reset (gs : List Group) : List Group × Option FromageError :=
  runGroups
    (fun g =>
      let r := runLoop (resetParam g.pBound) g.params
      ({ g with params := r.1 }, r.2))
    gs

/-- Modelled from the spec: `validate_learning_rate` lives in the base
optimizer package, which is not part of the sources; the spec states the
learning rate "must be strictly positive — fails with
`InvalidConfigurationError` otherwise". -/
noncomputable def validate_learning_rate (lr : ℝ) : Except FromageError Unit :=
  if lr ≤ 0 then Except.error FromageError.invalidConfiguration
  else Except.ok ()

/-- The constructor, `Fromage.__init__`: validates the learning rate (before looking at any
parameter), then builds the single parameter group; the `p_bound` key is
added to the defaults only when a bound was supplied. -/
noncomputable def init (ps : List ParamEntry) (lr : ℝ) (p_bound : Option ℝ) :
    Except FromageError Group :=
  match validate_learning_rate lr with
  | Except.error e => Except.error e
  | Except.ok _ => Except.ok { lr := lr, pBound := p_bound, params := ps }

/-- Written from the spec's words (claim C1): the new parameter value is
`(p - lr * g * (p_norm / g_norm)) / sqrt(1 + lr^2)` when both norms are
strictly positive, and `(p - lr * g) / sqrt(1 + lr^2)` otherwise. -/
noncomputable def specUpdateFormula (lr : ℝ) (p g : List ℝ) : List ℝ :=
  let p_norm := l2norm p
  let g_norm := l2norm g
  if 0 < p_norm ∧ 0 < g_norm then
    List.zipWith (fun a b => (a - lr * b * (p_norm / g_norm)) / Real.sqrt (1 + lr ^ 2)) p g
  else
    List.zipWith (fun a b => (a - lr * b) / Real.sqrt (1 + lr ^ 2)) p g

lemma sumSq_nonneg (xs : List ℝ) : 0 ≤ (xs.map (fun x => x ^ 2)).sum := by
  apply List.sum_nonneg
  intro a ha
  rcases List.mem_map.mp ha with ⟨x, _, rfl⟩
  positivity

lemma l2norm_nonneg (xs : List ℝ) : 0 ≤ l2norm xs :=
  Real.sqrt_nonneg _

lemma l2norm_singleton (x : ℝ) : l2norm [x] = |x| := by
  simp [l2norm, Real.sqrt_sq_eq_abs]

lemma l2norm_map_mul (xs : List ℝ) (c : ℝ) :
    l2norm (xs.map (fun x => x * c)) = l2norm xs * |c| := by
  unfold l2norm
  rw [List.map_map]
  have h1 : ((fun x => x ^ 2) ∘ fun x => x * c) = fun x => x ^ 2 * c ^ 2 := by
    funext x; simp [Function.comp]; ring
  rw [h1]
  have h2 : (xs.map fun x => x ^ 2 * c ^ 2).sum = (xs.map fun x => x ^ 2).sum * c ^ 2 := by
    induction xs with
    | nil => simp
    | cons a t ih => simp [ih]; ring
  rw [h2, Real.sqrt_mul (sumSq_nonneg xs), Real.sqrt_sq_eq_abs]

lemma l2norm_replicate_zero (n : ℕ) : l2norm (List.replicate n 0) = 0 := by
  unfold l2norm
  have : (List.replicate n (0 : ℝ)).map (fun x => x ^ 2) = List.replicate n 0 := by
    induction n with
    | zero => simp
    | succ k ih => simp [List.replicate_succ, ih]
  rw [this, List.sum_replicate]
  simp

lemma zipWith_add_replicate_zero (lr : ℝ) (v : List ℝ) :
    List.zipWith (fun a b => a + (-lr) * b) v (List.replicate v.length 0) = v := by
  induction v with
  | nil => rfl
  | cons a t ih =>
    simp [List.replicate_succ]
    simpa using ih

end Fromage

namespace Fromage

/-- C1: for every parameter processed by `step` with a dense, non-absent
gradient, the update of lines 79–86 (norm-ratio step, or plain scaled step
when either norm is zero, followed by the damping division) equals the
spec's closed formula `(p - lr * g * (p_norm / g_norm)) / sqrt(1 + lr^2)`
(resp. `(p - lr * g) / sqrt(1 + lr^2)`), with the prefactor
`sqrt(1 + lr^2)` — the constant `stepGroup` computes once per group per
step — before any bound projection is applied. -/
theorem C1_dense_update_formula (lr : ℝ) (p g : List ℝ) :
    dampedUpdate lr (Real.sqrt (1 + lr ^ 2)) p g = specUpdateFormula lr p g := by
  by_cases h : 0 < l2norm p ∧ 0 < l2norm g
  · simp only [dampedUpdate, specUpdateFormula, if_pos h, List.zipWith_map_right,
      List.map_zipWith]
    congr 1
    funext a b
    ring
  · simp only [dampedUpdate, specUpdateFormula, if_neg h, List.map_zipWith]
    congr 1
    funext a b
    ring

/-- C6: `max_norm` once established is never rewritten by `step` (whatever
the gradient and whatever the `p_bound` key holds, a parameter whose
state already holds `m` still holds `m` afterwards — in particular the
bound-projection branch never modifies it); `step` writes it, as current
parameter norm times `p_bound`, only when the state is empty; `reset`
always overwrites it with the norm at the moment of the call times
`p_bound`. -/
theorem C6_max_norm_stability (lr prefactor b m : ℝ) (pB : Option ℝ)
    (v gv : List ℝ) (g g2 : Option Grad) (st : Option ℝ) :
    ((stepOne lr prefactor pB ⟨v, g, some m⟩).1).st = some m ∧
    ((stepOne lr prefactor (some b) ⟨v, some ⟨gv, false⟩, none⟩).1).st
      = some (l2norm v * b) ∧
    ((resetParam (some b) ⟨v, g2, st⟩).1).st = some (l2norm v * b) := by
  refine ⟨?_, rfl, rfl⟩
  rcases g with _ | ⟨gvals, s⟩
  · rfl
  · cases s <;> cases pB <;> rfl

/-- C7: a parameter whose gradient is absent is left bit-identical by
`step` — `stepOne` returns it unchanged with no error, and the parameter
loop passes over it without touching it. -/
theorem C7_absent_gradient_untouched (lr prefactor : ℝ) (pB : Option ℝ)
    (v : List ℝ) (st : Option ℝ) (rest : List ParamEntry) :
    stepOne lr prefactor pB ⟨v, none, st⟩ = (⟨v, none, st⟩, none) ∧
    runLoop (stepOne lr prefactor pB) (⟨v, none, st⟩ :: rest) =
      (⟨v, none, st⟩ :: (runLoop (stepOne lr prefactor pB) rest).1,
       (runLoop (stepOne lr prefactor pB) rest).2) := by
  exact ⟨rfl, rfl⟩

/-- C9: `step` evaluates the closure before iterating over any parameter
group, so a raising closure propagates its exception and every group — so
every parameter value and every per-parameter state — is returned exactly
as it was before the call. -/
theorem C9_closure_raises_nothing_mutated (e : String) (gs : List Group) :
    step (some (Except.error e)) gs = (gs, Except.error (FromageError.closureFailure e)) :=
  rfl

end Fromage

namespace Fromage

lemma l2norm_singleton_of_nonneg {x : ℝ} (hx : 0 ≤ x) : l2norm [x] = x := by
  rw [l2norm_singleton, abs_of_nonneg hx]

lemma runLoop_cons {α : Type} (f : α → α × Option FromageError) (e : α) (rest : List α) :
    runLoop f (e :: rest) =
      match (f e).2 with
      | some er => ((f e).1 :: rest, some er)
      | none => ((f e).1 :: (runLoop f rest).1, (runLoop f rest).2) :=
  rfl

/-- C2 fails on the code: with a strictly positive learning rate and
`p_bound` absent, construction succeeds, but both `step` (on a dense
gradient) and `reset` raise a `KeyError` on the missing `p_bound` key of
the group dictionary — an exception that is neither
`InvalidConfigurationError` nor `UnsupportedGradientError` — leaving the
parameter value unchanged. -/
theorem C2_no_bound_keyerror :
    init [⟨[4], some ⟨[2], false⟩, none⟩] (1 / 10) none
      = Except.ok ⟨1 / 10, none, [⟨[4], some ⟨[2], false⟩, none⟩]⟩ ∧
    step none [⟨1 / 10, none, [⟨[4], some ⟨[2], false⟩, none⟩]⟩]
      = ([⟨1 / 10, none, [⟨[4], some ⟨[2], false⟩, none⟩]⟩],
         Except.error (FromageError.keyError pBoundKey)) ∧
    reset [⟨1 / 10, none, [⟨[4], some ⟨[2], false⟩, none⟩]⟩]
      = ([⟨1 / 10, none, [⟨[4], some ⟨[2], false⟩, none⟩]⟩],
         some (FromageError.keyError pBoundKey)) := by
  refine ⟨?_, ?_, ?_⟩
  · norm_num [init, validate_learning_rate]
  · simp [step, runGroups, stepGroup, runLoop, stepOne]
  · simp [reset, runGroups, runLoop, resetParam]

/-- C3 fails on the code: in the spec's concrete scenario (`p = 4.0`,
`g = 2.0` dense, `lr = 0.1`, no bound) `step` raises a `KeyError` on the
missing `p_bound` key before touching the parameter, which stays `4.0`
instead of becoming `3.6 / sqrt(1.01)`; the update of lines 79–86 itself,
had it been reached, produces exactly the claimed value. -/
theorem C3_scalar_scenario_keyerror :
    step none [⟨0.1, none, [⟨[4], some ⟨[2], false⟩, none⟩]⟩]
      = ([⟨0.1, none, [⟨[4], some ⟨[2], false⟩, none⟩]⟩],
         Except.error (FromageError.keyError pBoundKey)) ∧
    dampedUpdate 0.1 (Real.sqrt (1 + 0.1 ^ 2)) [4] [2] = [3.6 / Real.sqrt 1.01] := by
  constructor
  · simp [step, runGroups, stepGroup, runLoop, stepOne]
  · have hp : l2norm [4] = 4 := l2norm_singleton_of_nonneg (by norm_num)
    have hg : l2norm [2] = 2 := l2norm_singleton_of_nonneg (by norm_num)
    have hc : (0 : ℝ) < 4 ∧ (0 : ℝ) < 2 := by norm_num
    simp only [dampedUpdate, hp, hg, if_pos hc, List.map_cons, List.map_nil,
      List.zipWith_cons_cons, List.zipWith_nil_right]
    norm_num

/-- C4: a sparse gradient makes `step` raise `NoSparseGradientError`
naming `Fromage` at the offending parameter: that parameter's value and
state are left unmodified, parameters processed earlier in the iteration
keep their updates, and parameters after the offending one are untouched. -/
theorem C4_sparse_gradient_raises (lr prefactor : ℝ) (pB : Option ℝ)
    (ps1 : List ParamEntry) (v gv : List ℝ) (st : Option ℝ) (ps2 : List ParamEntry)
    (h : ∀ e ∈ ps1, (stepOne lr prefactor pB e).2 = none) :
    runLoop (stepOne lr prefactor pB) (ps1 ++ ⟨v, some ⟨gv, true⟩, st⟩ :: ps2) =
      (ps1.map (fun e => (stepOne lr prefactor pB e).1)
         ++ ⟨v, some ⟨gv, true⟩, st⟩ :: ps2,
       some (FromageError.noSparseGradient toStr)) := by
  induction ps1 with
  | nil => simp [runLoop, stepOne]
  | cons a t ih =>
    have ha : (stepOne lr prefactor pB a).2 = none := h a (by simp)
    have ht : ∀ e ∈ t, (stepOne lr prefactor pB e).2 = none := by
      intro e he
      exact h e (by simp [he])
    rw [List.cons_append, runLoop_cons, ha, ih ht]
    simp

/-- Witness for C4: a two-parameter group whose first parameter has no
gradient and whose second gradient is sparse. -/
theorem C4_sparse_gradient_raises_witness :
    (∀ e ∈ ([⟨[1], none, none⟩] : List ParamEntry), (stepOne 1 1 none e).2 = none) ∧
    runLoop (stepOne 1 1 none)
        (([⟨[1], none, none⟩] : List ParamEntry) ++ ⟨[2], some ⟨[3], true⟩, none⟩ :: []) =
      (([⟨[1], none, none⟩] : List ParamEntry).map (fun e => (stepOne 1 1 none e).1)
         ++ ⟨[2], some ⟨[3], true⟩, none⟩ :: [],
       some (FromageError.noSparseGradient toStr)) := by
  have h : ∀ e ∈ ([⟨[1], none, none⟩] : List ParamEntry), (stepOne 1 1 none e).2 = none := by
    intro e he
    rw [List.mem_singleton] at he
    subst he
    rfl
  exact ⟨h, C4_sparse_gradient_raises 1 1 none [⟨[1], none, none⟩] [2] [3] none [] h⟩

end Fromage

namespace Fromage

/-- C5: with the bound set, the projection of lines 88–91 leaves the
parameter unchanged when its post-update norm does not exceed the stored
`max_norm`, and otherwise multiplies it by `max_norm / current_norm` — a
nonnegative scalar, so the direction is preserved — after which its norm
equals `max_norm` exactly. -/
theorem C5_bound_projection (m : ℝ) (p : List ℝ) (hm : 0 ≤ m) :
    (l2norm p ≤ m → boundProject m p = p) ∧
    (m < l2norm p →
      boundProject m p = p.map (fun x => x * (m / l2norm p)) ∧
      l2norm (boundProject m p) = m ∧
      0 ≤ m / l2norm p) := by
  constructor
  · intro hle
    unfold boundProject
    rw [if_neg (not_lt.mpr hle)]
  · intro hlt
    have hpn : 0 < l2norm p := lt_of_le_of_lt hm hlt
    have hnn : 0 ≤ m / l2norm p := div_nonneg hm hpn.le
    have heq : boundProject m p = p.map (fun x => x * (m / l2norm p)) := by
      unfold boundProject
      rw [if_pos hlt, List.map_map]
      congr 1
      funext x
      simp only [Function.comp]
      ring
    refine ⟨heq, ?_, hnn⟩
    rw [heq, l2norm_map_mul, abs_of_nonneg hnn, mul_comm,
      div_mul_cancel₀ m hpn.ne']

/-- Witness for C5 at `m = 2`, `p = [3]`: the norm `3` exceeds the bound
`2`, so the parameter is rescaled by `2 / 3`. -/
theorem C5_bound_projection_witness :
    (0 : ℝ) ≤ 2 ∧ 2 < l2norm [3] ∧
    boundProject 2 [3] = [3].map (fun x => x * (2 / l2norm [3])) := by
  have hm : (0 : ℝ) ≤ 2 := by norm_num
  have h3 : l2norm [3] = 3 := l2norm_singleton_of_nonneg (by norm_num)
  have hlt : (2 : ℝ) < l2norm [3] := by rw [h3]; norm_num
  exact ⟨hm, hlt, ((C5_bound_projection 2 [3] hm).2 hlt).1⟩

/-- C8: `step` returns the closure's scalar when a closure is supplied and
an absent loss when none is, and the constructor validates the learning
rate once, before any parameter or gradient is inspected: it fails with
`InvalidConfigurationError` exactly when `lr ≤ 0`, on any parameter list. -/
theorem C8_loss_return_and_lr_validation (ps : List ParamEntry) (pb : Option ℝ)
    (lr l : ℝ) (gs : List Group) :
    (lr ≤ 0 → init ps lr pb = Except.error FromageError.invalidConfiguration) ∧
    (0 < lr → init ps lr pb = Except.ok ⟨lr, pb, ps⟩) ∧
    ((runGroups stepGroup gs).2 = none →
      step (some (Except.ok l)) gs = ((runGroups stepGroup gs).1, Except.ok (some l)) ∧
      step none gs = ((runGroups stepGroup gs).1, Except.ok none)) := by
  refine ⟨?_, ?_, ?_⟩
  · intro h
    simp [init, validate_learning_rate, h]
  · intro h
    simp [init, validate_learning_rate, not_le.mpr h]
  · intro h
    constructor <;> simp [step, h]

/-- Witness for C8: a negative and a positive learning rate at
construction, and a loss-returning step on an empty group list. -/
theorem C8_loss_return_and_lr_validation_witness :
    ((-1 : ℝ) ≤ 0) ∧
    init [] (-1) none = Except.error FromageError.invalidConfiguration ∧
    ((0 : ℝ) < 1) ∧
    init [] 1 none = Except.ok ⟨1, none, []⟩ ∧
    (runGroups stepGroup []).2 = none ∧
    step (some (Except.ok 5)) [] = ((runGroups stepGroup []).1, Except.ok (some 5)) ∧
    step none [] = ((runGroups stepGroup []).1, Except.ok none) := by
  have h1 : (-1 : ℝ) ≤ 0 := by norm_num
  have h2 : (0 : ℝ) < 1 := by norm_num
  have h3 : (runGroups stepGroup ([] : List Group)).2 = none := rfl
  have c3 := (C8_loss_return_and_lr_validation [] none 1 5 []).2.2 h3
  exact ⟨h1, (C8_loss_return_and_lr_validation [] none (-1) 5 []).1 h1,
    h2, (C8_loss_return_and_lr_validation [] none 1 5 []).2.1 h2, h3, c3.1, c3.2⟩

/-- An all-zero gradient has zero norm, so the update takes the fallback
branch and subtracts nothing; only the damping division acts. -/
lemma dampedUpdate_zero_grad (lr pf : ℝ) (w : List ℝ) :
    dampedUpdate lr pf w (List.replicate w.length 0) = w.map (fun x => x / pf) := by
  have hcond : ¬(0 < l2norm w ∧ (0 : ℝ) < 0) := by
    rintro ⟨-, h2⟩
    exact lt_irrefl 0 h2
  simp only [dampedUpdate, l2norm_replicate_zero, if_neg hcond,
    zipWith_add_replicate_zero]

/-- C10: a present but all-zero gradient takes the fallback branch, which
subtracts nothing, yet the damping division still applies, so the
parameter still becomes its old value divided by the prefactor — unlike
an absent gradient, which leaves the parameter untouched.  On the
concrete input `p = [4]`, `g = [0]`, `lr = 0.1`, bound `2` with stored
`max_norm = 8`, one `step` iteration makes the parameter
`4 / sqrt(1.01) ≠ 4`. -/
theorem C10_zero_gradient_still_damps (lr prefactor : ℝ) (pB : Option ℝ)
    (v : List ℝ) (st : Option ℝ) :
    dampedUpdate lr prefactor v (List.replicate v.length 0)
      = v.map (fun x => x / prefactor) ∧
    (stepOne lr prefactor pB ⟨v, none, st⟩).1.value = v ∧
    (stepOne 0.1 (Real.sqrt (1 + 0.1 ^ 2)) (some 2)
        ⟨[4], some ⟨[0], false⟩, some 8⟩).1.value = [4 / Real.sqrt 1.01] ∧
    (4 : ℝ) / Real.sqrt 1.01 ≠ 4 := by
  have hs1 : (1 : ℝ) < Real.sqrt 1.01 := by
    have h := Real.sqrt_lt_sqrt (by norm_num : (0 : ℝ) ≤ 1) (by norm_num : (1 : ℝ) < 1.01)
    rwa [Real.sqrt_one] at h
  have h101 : Real.sqrt (1 + 0.1 ^ 2) = Real.sqrt 1.01 := by norm_num
  have hd : dampedUpdate 0.1 (Real.sqrt (1 + 0.1 ^ 2)) [4] [0] = [4 / Real.sqrt 1.01] := by
    have h := dampedUpdate_zero_grad 0.1 (Real.sqrt (1 + 0.1 ^ 2)) [4]
    simp only [h101] at h ⊢
    simpa using h
  refine ⟨dampedUpdate_zero_grad lr prefactor v, rfl, ?_, ?_⟩
  · show boundProject 8 (dampedUpdate 0.1 (Real.sqrt (1 + 0.1 ^ 2)) [4] [0])
      = [4 / Real.sqrt 1.01]
    rw [hd]
    have hn : l2norm [4 / Real.sqrt 1.01] = 4 / Real.sqrt 1.01 :=
      l2norm_singleton_of_nonneg (by positivity)
    have hle : (4 : ℝ) / Real.sqrt 1.01 ≤ 4 := div_le_self (by norm_num) hs1.le
    simp only [boundProject, hn]
    rw [if_neg (by linarith)]
  · exact ne_of_lt (div_lt_self (by norm_num) hs1)

end Fromage

namespace Fromage

lemma one_lt_sqrt_101 : (1 : ℝ) < Real.sqrt 1.01 := by
  have h := Real.sqrt_lt_sqrt (by norm_num : (0 : ℝ) ≤ 1) (by norm_num : (1 : ℝ) < 1.01)
  rwa [Real.sqrt_one] at h

/-- Counterexample to C10 as stated: with the group's `p_bound` key absent
(no bound supplied — the configuration the claim leaves unspecified), a
parameter with a present all-zero gradient is not modified by `step` at
all: the iteration raises `KeyError` at the lazy-initialisation test and
leaves the parameter at `[4]`, which differs from the claimed
`[4 / sqrt(1.01)]`. -/
theorem C10_zero_grad_unmodified_counterexample :
    (stepOne 0.1 (Real.sqrt (1 + 0.1 ^ 2)) none ⟨[4], some ⟨[0], false⟩, none⟩)
      = (⟨[4], some ⟨[0], false⟩, none⟩, some (FromageError.keyError pBoundKey)) ∧
    ([4] : List ℝ) ≠ [4 / Real.sqrt 1.01] := by
  refine ⟨rfl, ?_⟩
  have hlt : (4 : ℝ) / Real.sqrt 1.01 < 4 := div_lt_self (by norm_num) one_lt_sqrt_101
  simp only [ne_eq, List.cons.injEq, and_true]
  exact fun h => absurd h (ne_of_gt hlt)

end Fromage
